import Mathlib

/-!
# Verification of the iterm2-scripts workspace launcher core

A shallow embedding, in Lean 4, of the discovery, selection, reorder and
preference-persistence logic of the workspace launcher
(`workspace-launcher.py` and the `src/` modules it is concatenated from),
together with proofs of the behavioural properties stated in the
specification.

Conventions used throughout:

* Python dicts whose values are strings are embedded as association lists
  `List (String × String)`; a live dict has unique keys, lookup takes the
  first match, and assignment (`d[k] = v`) updates in place, preserving key
  order, exactly as CPython does.
* Python truthiness of an optional string (`None` and `""` are falsy) is
  `pyTruthy`.
* Python's stable `list.sort` / `sorted` with a key function is embedded as
  `List.insertionSort` over the pulled-back `≤` relation on keys:
  both are stable sorts, and a stable sort by a key is unique, so the two
  agree element for element.
* External effects (filesystem layout, `git` subprocess output, the
  SwiftDialog renderer, the screen height) are parameters of the embedded
  functions: a record of environment functions, or an explicit script of
  dialog responses consumed one response per dialog shown.
-/

namespace WorkspaceLauncher

/-! ## Python string and dict primitives

All string operations are implemented by structural recursion over the
character list underlying `String`, so they agree with the corresponding
CPython operations on the relevant inputs and — unlike the iterator-based
library versions — evaluate inside the kernel, letting concrete witnesses
go through by `decide`. -/

/-- Python truthiness of a `str | None` value: `None` and `""` are falsy. -/
def pyTruthy : Option String → Bool
  | none => false
  | some s => s ≠ ""

/-- Lookup in a Python string-valued dict embedded as an association list
(first match wins; a genuine dict has unique keys). -/
def dictGet (d : List (String × String)) (k : String) : Option String :=
  match d.find? (fun p => p.1 = k) with
  | some p => some p.2
  | none => none

/-- Python dict assignment `d[k] = v`: updates the value in place if the key
exists (keeping its position), otherwise appends the new pair at the end. -/
def dictSet (d : List (String × String)) (k v : String) : List (String × String) :=
  match d with
  | [] => [(k, v)]
  | (k', v') :: rest => if k' = k then (k, v) :: rest else (k', v') :: dictSet rest k v

/-- Split a character list on a separator character; like Python
`s.split(sep)` for a one-character separator, the result always has at
least one (possibly empty) group. -/
def chSplit (sep : Char) (cs : List Char) : List (List Char) :=
  cs.foldr
    (fun c acc =>
      if c = sep then [] :: acc
      else
        match acc with
        | g :: gs => (c :: g) :: gs
        | [] => [[c]])
    [[]]

/-- Join character-list groups with a separator (inverse of `chSplit`). -/
def chJoin (sep : List Char) : List (List Char) → List Char
  | [] => []
  | [g] => g
  | g :: gs => g ++ sep ++ chJoin sep gs

/-- Prefix test on character lists (Python `str.startswith`). -/
def chStartsWith : List Char → List Char → Bool
  | _, [] => true
  | [], _ :: _ => false
  | c :: cs, p :: ps => c = p && chStartsWith cs ps

/-- Python `str.startswith`. -/
def pyStartsWith (s p : String) : Bool :=
  chStartsWith s.data p.data

/-- The whitespace stripped by Python `str.strip()` (ASCII subset). -/
def chIsSpace (c : Char) : Bool :=
  c = ' ' || c = '\t' || c = '\n' || c = '\r'

/-- Python `str.strip()`: drop leading and trailing whitespace. -/
def pyStrip (s : String) : String :=
  String.mk (((s.data.dropWhile chIsSpace).reverse.dropWhile chIsSpace).reverse)

/-- Python `str.upper()` (ASCII letters). -/
def pyUpper (s : String) : String :=
  String.mk (s.data.map Char.toUpper)

/-- `os.path.basename` for POSIX: everything after the final `/`
(so a path ending in `/` has basename `""`). -/
def pyBasename (p : String) : String :=
  String.mk (((chSplit '/' p.data).getLast?).getD [])

/-- `pathlib.PurePosixPath(p).name`: the last path component after pathlib's
normalisation, which drops empty components and single dots. -/
def pathlibName (p : String) : String :=
  String.mk ((((chSplit '/' p.data).filter (fun g => g ≠ [] && g ≠ ['.'])).getLast?).getD [])

/-- `str(pathlib.PurePosixPath(p))`: collapse repeated slashes, drop `.`
components, strip any trailing slash; `""` and `"."` render as `"."`.
(The POSIX double-leading-slash special case is not modelled.) -/
def pyPathStr (p : String) : String :=
  let body := chJoin ['/'] ((chSplit '/' p.data).filter (fun g => g ≠ [] && g ≠ ['.']))
  if chStartsWith p.data ['/'] then String.mk ('/' :: body)
  else if body = [] then "." else String.mk body

/-- `os.path.expanduser` with the given (already slash-stripped) home
directory: a path that is exactly `~`, or starts with `~/`, has the tilde
replaced by `home`; other paths (including `~user` forms, which consult the
password database) are returned unchanged. -/
def expanduser (home p : String) : String :=
  if p = "~" then home
  else if pyStartsWith p "~/" then String.mk (home.data ++ p.data.drop 1)
  else p

/-- Replacement engine for `str.replace` with a non-empty pattern: leftmost
non-overlapping occurrences, fuelled by the subject's length (each step
either emits one character or consumes at least one pattern character). -/
def chReplaceFuel : Nat → List Char → List Char → List Char → List Char
  | 0, s, _, _ => s
  | fuel + 1, s, pat, repl =>
    match s with
    | [] => []
    | c :: cs =>
      if chStartsWith (c :: cs) pat then
        repl ++ chReplaceFuel fuel (List.drop pat.length (c :: cs)) pat repl
      else c :: chReplaceFuel fuel cs pat repl

/-- Python `s.replace(pat, repl)` for a non-empty pattern (the launcher only
replaces `str(Path.home())`, never empty). -/
def pyReplace (s pat repl : String) : String :=
  String.mk (chReplaceFuel (s.data.length + 1) s.data pat.data repl.data)

/-- Whether `cs` is a valid digit body for Python `int()`: non-empty, ASCII
digits with single underscores strictly between digits. -/
def pyIntBodyValid (cs : List Char) : Bool :=
  !cs.isEmpty
    && cs.all (fun c => c.isDigit || c == '_')
    && cs.head? != some '_'
    && cs.getLast? != some '_'
    && (cs.zip cs.tail).all (fun p => !(p.1 == '_' && p.2 == '_'))
    && cs.any (fun c => c.isDigit)

/-- Numeric value of a valid digit body (underscores skipped). -/
def pyIntVal (cs : List Char) : Nat :=
  (cs.filter (fun c => c != '_')).foldl (fun n c => 10 * n + (c.toNat - 48)) 0

/-- Python `int(s)` on a string: strips surrounding whitespace, then an
optional sign followed by an underscore-grouped ASCII digit body; any other
shape raises `ValueError`, which we embed as `none`. -/
def pyInt (s : String) : Option Int :=
  match (pyStrip s).data with
  | '+' :: rest => if pyIntBodyValid rest then some (pyIntVal rest : Int) else none
  | '-' :: rest => if pyIntBodyValid rest then some (-(pyIntVal rest : Int)) else none
  | cs => if pyIntBodyValid cs then some (pyIntVal cs : Int) else none

/-! ## Preferences: data model (`workspace-launcher.py`)

`load_preferences` / `save_preferences` read and write a narrow TOML schema.
The on-disk file is embedded abstractly as `PrefsFile`: one optional slot
per top-level key that `save_preferences` can emit.  This is exact for the
fixed hand-rendered layout whenever every written string is TOML-safe
(`tomlSafe` below): rendering a safe string as a quoted TOML basic string
and parsing it back is the identity, comments do not survive parsing, and
`tomllib` turns the `[custom_tab_names]` table and `[[scan_directories]]`
array-of-tables back into exactly the written entries. -/

/-- One `[[scan_directories]]` entry: `{path, enabled}`. -/
structure ScanDir where
  path : String
  enabled : Bool
deriving DecidableEq, Repr

/-- The in-memory preferences dict, typed by the schema it actually holds.

The first five fields are the keys of the `defaults` dict in
`load_preferences`, so they are always present after a load; the last three
(`skip_tab_customization`, `last_tab_selections`, `last_tab_order`) have no
default and may be absent from the dict, hence the `Option`. -/
structure Preferences where
  remember_choice : Bool
  last_layout : Option String
  scan_directories : List ScanDir
  custom_tab_names : List (String × String)
  disabled_layouts : List String
  skip_tab_customization : Option Bool
  last_tab_selections : Option (List String)
  last_tab_order : Option (List String)
deriving DecidableEq, Repr

/-- `DEFAULT_SCAN_DIRECTORIES`: empty by default for portability. -/
def DEFAULT_SCAN_DIRECTORIES : List ScanDir := []

/-- The `defaults` dict built at the top of `load_preferences`
(the three Layer-2 keys are absent from it). -/
def defaultPreferences : Preferences :=
  { remember_choice := false
    last_layout := none
    scan_directories := DEFAULT_SCAN_DIRECTORIES
    custom_tab_names := []
    disabled_layouts := []
    skip_tab_customization := none
    last_tab_selections := none
    last_tab_order := none }

/-- Abstract content of the preferences TOML file: each top-level key is
present (`some`) or absent (`none`). -/
structure PrefsFile where
  remember_choice : Option Bool := none
  last_layout : Option String := none
  skip_tab_customization : Option Bool := none
  last_tab_selections : Option (List String) := none
  last_tab_order : Option (List String) := none
  disabled_layouts : Option (List String) := none
  custom_tab_names : Option (List (String × String)) := none
  scan_directories : Option (List ScanDir) := none
deriving DecidableEq, Repr

/-- Lexicographic strict order on code-point sequences. -/
def charListLt : List Char → List Char → Bool
  | [], [] => false
  | [], _ :: _ => true
  | _ :: _, [] => false
  | a :: as, b :: bs => if a < b then true else if b < a then false else charListLt as bs

/-- Python `<` on strings: lexicographic by Unicode code point. -/
def pyStrLt (a b : String) : Bool :=
  charListLt a.toList b.toList

/-- Python tuple comparison on `(key, value)` string pairs, as used by
`sorted(custom_names.items())` in `save_preferences`. -/
def pyPairLE (a b : String × String) : Prop :=
  pyStrLt a.1 b.1 = true ∨ (a.1 = b.1 ∧ (a.2 = b.2 ∨ pyStrLt a.2 b.2 = true))

instance : DecidableRel pyPairLE := fun a b => by
  unfold pyPairLE; infer_instance

/-- The file content emitted by `save_preferences(prefs)`: every key is
written only when its value is truthy, except `remember_choice` (always
written) and `skip_tab_customization` (written whenever it `is not None`);
`custom_tab_names` is written sorted by `sorted(custom_names.items())`. -/
def renderPreferences (p : Preferences) : PrefsFile :=
  { remember_choice := some p.remember_choice
    last_layout :=
      match p.last_layout with
      | some s => if s ≠ "" then some s else none
      | none => none
    skip_tab_customization := p.skip_tab_customization
    last_tab_selections :=
      match p.last_tab_selections with
      | some l => if l ≠ [] then some l else none
      | none => none
    last_tab_order :=
      match p.last_tab_order with
      | some l => if l ≠ [] then some l else none
      | none => none
    disabled_layouts := if p.disabled_layouts ≠ [] then some p.disabled_layouts else none
    custom_tab_names :=
      if p.custom_tab_names ≠ [] then some (p.custom_tab_names.insertionSort pyPairLE)
      else none
    scan_directories := if p.scan_directories ≠ [] then some p.scan_directories else none }

/-- What `load_preferences` finds on disk: no file, a file `tomllib` rejects,
or a parsed file. -/
inductive LoadSource where
  | missing
  | parseError
  | file (f : PrefsFile)

/-- `load_preferences()`: missing file or parse failure yield the defaults;
otherwise the file's top-level keys are shallow-merged onto the defaults
(`{**defaults, **prefs}`, plus the explicit re-defaulting of
`scan_directories` when the key is absent). -/
def load_preferences : LoadSource → Preferences
  | .missing => defaultPreferences
  | .parseError => defaultPreferences
  | .file f =>
    { remember_choice := f.remember_choice.getD defaultPreferences.remember_choice
      last_layout := f.last_layout
      scan_directories := f.scan_directories.getD DEFAULT_SCAN_DIRECTORIES
      custom_tab_names := f.custom_tab_names.getD []
      disabled_layouts := f.disabled_layouts.getD []
      skip_tab_customization := f.skip_tab_customization
      last_tab_selections := f.last_tab_selections
      last_tab_order := f.last_tab_order }

/-! ## Atomic write and save (`atomic_write_file`, `save_preferences`) -/

/-- The slice of the filesystem `atomic_write_file` touches: the target
preferences file and the writer's temp file (`mkstemp` in the target's
directory), each either absent or holding content. -/
structure FS (α : Type) where
  target : Option α
  temp : Option α
deriving DecidableEq, Repr

/-- `errno.ENOSPC`. -/
def ENOSPC : Nat := 28

/-- The error surfaced by `atomic_write_file`: `OSError` with an errno,
where `ENOSPC` is re-raised as the distinct disk-full message. -/
inductive PrefsWriteError where
  | diskFull
  | osError (errno : Nat)
deriving DecidableEq, Repr

/-- Fault injection for one run of `atomic_write_file`: the run succeeds, or
the write/flush/fsync step raises `OSError(errno)` after `written` content
reached the temp file, or the final `os.rename` raises `OSError(errno)`. -/
inductive WriteFault (α : Type) where
  | ok
  | writeFail (errno : Nat) (written : α)
  | renameFail (errno : Nat)

/-- `OSError` handler of `atomic_write_file`: `ENOSPC` becomes the distinct
disk-full error, anything else is re-raised as is. -/
def mapErrno (e : Nat) : PrefsWriteError :=
  if e = ENOSPC then .diskFull else .osError e

/-- `atomic_write_file(path, content)` under a fault scenario, stepping the
filesystem through the code's sequence: `mkstemp` in the target's directory,
write + flush + `fsync` into the temp file, then `os.rename` over the
target; on `OSError` anywhere in that block the temp file is unlinked and
the (possibly remapped) error propagates. -/
def atomic_write_file (fs : FS α) (content : α) (w : WriteFault α) :
    FS α × Except PrefsWriteError Unit :=
  match w with
  | .ok =>
    let afterWrite : FS α := { fs with temp := some content }
    let afterRename : FS α := { target := afterWrite.temp, temp := none }
    (afterRename, .ok ())
  | .writeFail e written =>
    let afterWrite : FS α := { fs with temp := some written }
    let afterUnlink : FS α := { afterWrite with temp := none }
    (afterUnlink, .error (mapErrno e))
  | .renameFail e =>
    let afterWrite : FS α := { fs with temp := some content }
    let afterUnlink : FS α := { afterWrite with temp := none }
    (afterUnlink, .error (mapErrno e))

/-- `save_preferences(prefs)`: render the fixed TOML layout and hand it to
`atomic_write_file`; an `OSError` from the write is caught and logged, never
re-raised, so the function's only effect is the new filesystem state. -/
def save_preferences (fs : FS PrefsFile) (p : Preferences) (w : WriteFault PrefsFile) :
    FS PrefsFile :=
  match atomic_write_file fs (renderPreferences p) w with
  | (fs', .ok _) => fs'
  | (fs', .error _) => fs'

/-- Reading the preferences path back after writes: no target file means
`missing`; an intact abstract file parses. -/
def loadSourceOf (fs : FS PrefsFile) : LoadSource :=
  match fs.target with
  | none => .missing
  | some f => .file f

/-! ## Representable preference values (round-trip side conditions) -/

/-- A string the hand-rendered TOML writer can emit losslessly inside a
quoted basic string or quoted key: no double quote, no backslash, no control
characters (the writer never escapes). -/
def tomlSafe (s : String) : Prop :=
  ∀ c ∈ s.toList, c ≠ '"' ∧ c ≠ '\\' ∧ 32 ≤ c.toNat ∧ c.toNat ≠ 127

instance : DecidablePred tomlSafe := fun s => by
  unfold tomlSafe; infer_instance

/-- An absent or truthy-and-safe optional string (for `last_layout`). -/
def optStrOK : Option String → Prop
  | some s => s ≠ "" ∧ tomlSafe s
  | none => True

instance : DecidablePred optStrOK := fun o =>
  match o with
  | none => .isTrue trivial
  | some s => inferInstanceAs (Decidable (s ≠ "" ∧ tomlSafe s))

/-- An absent or truthy (non-empty) list of safe strings (for the two
Layer-2 list fields, which `save_preferences` only writes when truthy). -/
def optListOK : Option (List String) → Prop
  | some l => l ≠ [] ∧ ∀ s ∈ l, tomlSafe s
  | none => True

instance : DecidablePred optListOK := fun o =>
  match o with
  | none => .isTrue trivial
  | some l => inferInstanceAs (Decidable (l ≠ [] ∧ ∀ s ∈ l, tomlSafe s))

/-- A `Preferences` value every field of which survives
`save_preferences`/`load_preferences`: strings are `tomlSafe`; the
truthiness-gated optional fields are not present-but-falsy (`last_layout`
not `some ""`, the two Layer-2 lists not `some []`); and `custom_tab_names`
is already in the sorted order the writer emits, with strictly increasing
keys (a Python dict has unique keys, and sorted order is the canonical
representation of its content up to dict equality, which ignores key
order). -/
def Representable (p : Preferences) : Prop :=
  optStrOK p.last_layout
    ∧ optListOK p.last_tab_selections
    ∧ optListOK p.last_tab_order
    ∧ (∀ s ∈ p.disabled_layouts, tomlSafe s)
    ∧ p.custom_tab_names.Pairwise (fun a b => pyStrLt a.1 b.1 = true)
    ∧ (∀ kv ∈ p.custom_tab_names, tomlSafe kv.1 ∧ tomlSafe kv.2)
    ∧ (∀ d ∈ p.scan_directories, tomlSafe d.path)

instance : DecidablePred Representable := fun p => by
  unfold Representable; infer_instance

/-! ## Discovery: single-pass directory classification (`selector.py`,
`discover_all_directories`)

A scan root's immediate children are embedded as `FsEntry` values recording
the facts the code inspects: the child's name, its full path (what `child`
compares and stringifies to), whether it is a directory, and the state of
its `.git` marker. -/

/-- State of `child / ".git"`: absent, a file (worktree pointer), or a
directory (real repository). -/
inductive GitMarker where
  | noGit
  | fileMarker
  | dirMarker
deriving DecidableEq, Repr

/-- One immediate child of a scan root, as seen by `base_dir.iterdir()`. -/
structure FsEntry where
  name : String
  path : String
  isDir : Bool
  marker : GitMarker
deriving DecidableEq, Repr

/-- One configured scan root: whether `base_dir.exists()` and its children
in iteration order. -/
structure ScanRoot where
  rootExists : Bool
  children : List FsEntry
deriving DecidableEq, Repr

/-- A discovered `{"name": ..., "dir": ...}` dict. -/
structure Item where
  name : String
  dir : String
deriving DecidableEq, Repr

/-- The inner loop of `discover_all_directories` over one root's children:
skip non-directories and excluded paths; a `.git` directory makes a repo; a
`.git` file (worktree pointer) is skipped; no `.git` and a non-hidden name
makes an untracked folder; no `.git` and a hidden (leading-dot) name is
skipped. -/
def classifyChildren (exclude : List String) : List FsEntry → List Item × List Item
  | [] => ([], [])
  | e :: rest =>
    let acc := classifyChildren exclude rest
    if ¬ e.isDir then acc
    else if e.path ∈ exclude then acc
    else
      match e.marker with
      | .dirMarker => (⟨e.name, e.path⟩ :: acc.1, acc.2)
      | .fileMarker => acc
      | .noGit =>
        if pyStartsWith e.name "." then acc else (acc.1, ⟨e.name, e.path⟩ :: acc.2)

/-- The outer loop over scan roots: roots that do not exist are skipped,
results accumulate in iteration order. -/
def collectRoots (exclude : List String) : List ScanRoot → List Item × List Item
  | [] => ([], [])
  | r :: rest =>
    let here := if r.rootExists then classifyChildren exclude r.children else ([], [])
    let acc := collectRoots exclude rest
    (here.1 ++ acc.1, here.2 ++ acc.2)

/-- Name-keyed order for the final `sorted(..., key=lambda x: x["name"])`
(Python's sort is stable; so is `List.insertionSort`, and a stable sort by a
key is unique, so the two agree). -/
def itemNameLE (a b : Item) : Prop :=
  pyStrLt a.name b.name = true ∨ a.name = b.name

instance : DecidableRel itemNameLE := fun a b => by
  unfold itemNameLE; infer_instance

/-- `discover_all_directories(scan_directories, exclude_dirs)`: single-pass
classification over every existing root's immediate children, both result
lists sorted by name. -/
def discover_all_directories (roots : List ScanRoot) (exclude : List String) :
    List Item × List Item :=
  let acc := collectRoots exclude roots
  (acc.1.insertionSort itemNameLE, acc.2.insertionSort itemNameLE)

/-- All children the scan actually visits: children of existing roots. -/
def scannedChildren : List ScanRoot → List FsEntry
  | [] => []
  | r :: rest => (if r.rootExists then r.children else []) ++ scannedChildren rest

/-! ## Discovery: git worktree enumeration (`selector.py`,
`discover_all_worktrees`)

The `git worktree list --porcelain` subprocess and the filesystem are
embedded as an environment record: `porcelain` returns the subprocess
stdout for a given repo working directory (`none` for a
`CalledProcessError` or `TimeoutExpired`, both of which the code logs and
skips), `resolve` is `Path.resolve`, `isDir` is `Path.is_dir`, `exists`
is `Path.exists`. -/

/-- External environment of `discover_all_worktrees`. -/
structure GitEnv where
  home : String
  resolve : String → String
  isDir : String → Bool
  pathExists : String → Bool
  porcelain : String → Option String

/-- A repo dict handed to `discover_all_worktrees` (`name` and `dir`). -/
structure RepoRef where
  name : String
  dir : String
deriving DecidableEq, Repr

/-- A (possibly still name-less) worktree dict built by the porcelain
parser.  The code's flush check `current_worktree.get("name")` tests
truthiness, and every name the parser constructs contains `".wt-"`, hence
is non-empty, so truthiness coincides with `Option.isSome`. -/
structure Worktree where
  dir : String
  parent : String
  name : Option String
  detached : Bool
deriving DecidableEq, Repr

/-- Parser state while walking porcelain lines: the worktree dict under
construction (`{}` is embedded as `none`), the `is_prunable` flag, and the
worktrees flushed so far. -/
structure WtParseState where
  cur : Option Worktree
  prunable : Bool
  acc : List Worktree
deriving Repr

/-- Flush the worktree under construction if it is valid:
`current_worktree and current_worktree.get("name") and not is_prunable`. -/
def wtFlush (st : WtParseState) : List Worktree :=
  match st.cur with
  | some wt => if wt.name.isSome ∧ ¬ st.prunable then st.acc ++ [wt] else st.acc
  | none => st.acc

/-- One line of `git worktree list --porcelain` output, processed exactly as
the loop body does: a `worktree ` line flushes the previous record, resets
the state and starts a new record unless the path is the main worktree
(resolved path equal to the repo's) or its directory is missing; `branch `
names the record from the branch's leaf segment; `detached` names it from
the directory basename and marks it; `prunable` marks the record to be
dropped. -/
def parseWtLine (env : GitEnv) (repo : RepoRef) (repoPathS : String)
    (st : WtParseState) (line : String) : WtParseState :=
  if pyStartsWith line "worktree " then
    let acc := wtFlush st
    let wtPathS := pyPathStr (String.mk (line.data.drop 9))
    if env.resolve wtPathS = env.resolve repoPathS then ⟨none, false, acc⟩
    else if ¬ env.isDir wtPathS then ⟨none, false, acc⟩
    else ⟨some ⟨wtPathS, repo.name, none, false⟩, false, acc⟩
  else if pyStartsWith line "branch " then
    match st.cur with
    | some wt =>
      { st with cur := some { wt with
          name := some (pyUpper (String.mk (repo.name.data.take 2)) ++ ".wt-"
            ++ String.mk (((chSplit '/' line.data).getLast?).getD [])) } }
    | none => st
  else if line = "detached" then
    match st.cur with
    | some wt =>
      { st with cur := some { wt with
          name := some (pyUpper (String.mk (repo.name.data.take 2)) ++ ".wt-"
            ++ pathlibName wt.dir)
          detached := true } }
    | none => st
  else if pyStartsWith line "prunable" then
    { st with prunable := true }
  else st

/-- Worktrees contributed by one repo: skip a non-existent repo path; a
failed or timed-out subprocess degrades to the empty list; otherwise walk
the porcelain lines and flush the final record. -/
def parseRepoWorktrees (env : GitEnv) (repo : RepoRef) : List Worktree :=
  let repoPathS := pyPathStr (expanduser env.home repo.dir)
  if ¬ env.pathExists repoPathS then []
  else
    match env.porcelain repoPathS with
    | none => []
    | some out =>
      wtFlush (((chSplit '\n' out.data).map String.mk).foldl
        (parseWtLine env repo repoPathS) ⟨none, false, []⟩)

/-- All records flushed across every repo, in repo order (`discovered`). -/
def allParsedWorktrees (env : GitEnv) (repos : List RepoRef) : List Worktree :=
  repos.foldl (fun acc r => acc ++ parseRepoWorktrees env r) []

/-- The dedup key: `Path(wt["dir"]).resolve()`. -/
def wtKey (env : GitEnv) (wt : Worktree) : String :=
  env.resolve (pyPathStr wt.dir)

/-- The final dedup loop over `discovered` with its `seen_dirs` set. -/
def dedupWorktrees (env : GitEnv) : List Worktree → List String → List Worktree
  | [], _ => []
  | wt :: rest, seen =>
    if wtKey env wt ∈ seen then dedupWorktrees env rest seen
    else wt :: dedupWorktrees env rest (wtKey env wt :: seen)

/-- `discover_all_worktrees(git_repos)`. -/
def discover_all_worktrees (env : GitEnv) (repos : List RepoRef) : List Worktree :=
  dedupWorktrees env (allParsedWorktrees env repos) []

/-- Concrete environment for the C3 witness: two repos whose porcelain
outputs both list the same secondary worktree `/shared/w`. -/
def wtTestEnv : GitEnv :=
  { home := "/home/u"
    resolve := fun s => s
    isDir := fun _ => true
    pathExists := fun _ => true
    porcelain := fun p =>
      if p = "/r1" then
        some "worktree /r1\nHEAD 1111\nbranch refs/heads/main\n\nworktree /shared/w\nHEAD 2222\nbranch refs/heads/x\n"
      else if p = "/r2" then
        some "worktree /r2\nHEAD 3333\nbranch refs/heads/main\n\nworktree /shared/w\nHEAD 2222\nbranch refs/heads/x\n"
      else none }

/-- The two repos scanned in the C3 witness. -/
def wtTestRepos : List RepoRef := [⟨"repoa", "/r1"⟩, ⟨"repob", "/r2"⟩]

/-! ## Tab utilities (`tab_utils.py`) -/

/-- A tab configuration dict (`dir` required in practice, `name` optional;
both embedded as options since `tab.get` tolerates absence). -/
structure Tab where
  dir : Option String
  name : Option String
deriving DecidableEq, Repr

/-- `expand_tab_path(path)`: `~`-expansion without symlink resolution. -/
def expand_tab_path (home path : String) : String :=
  expanduser home path

/-- `get_tab_display_name(tab, custom_tab_names)`: the single source of
truth for display names.  Priority: the `custom_tab_names` entry for the
*raw* stored `tab["dir"]` string, then `tab["name"]`, then the basename of
the `~`-expanded directory.  (`custom_tab_names or {}` replaces both `None`
and the empty dict by the empty dict.) -/
def get_tab_display_name (home : String) (tab : Tab)
    (custom_tab_names : Option (List (String × String))) : String :=
  let customD := custom_tab_names.getD []
  let path := tab.dir.getD ""
  if pyTruthy (dictGet customD path) then (dictGet customD path).getD ""
  else if pyTruthy tab.name then tab.name.getD ""
  else pyBasename (expand_tab_path home path)

/-! ## Rename-tabs dialog (`tab_customization.py`, `show_rename_tabs_dialog`)

The SwiftDialog renderer is embedded as a script of `DialogResp` responses,
one consumed per dialog shown; the function returns the list of rendered
pages (each page a list of prefilled text fields) alongside its outcome, so
prefill behaviour across navigation is visible to the theorems. -/

/-- An item offered for renaming (keys the code reads via `.get`). -/
structure RItem where
  dir : Option String
  path : Option String
  name : Option String
  category : Option String
deriving DecidableEq, Repr

/-- `item.get("dir") or item.get("path", "")`. -/
def ritemPath (it : RItem) : String :=
  if pyTruthy it.dir then it.dir.getD "" else it.path.getD ""

/-- One response from `run_swiftdialog`: the return code and the parsed
JSON output (`none` embeds Python `None`; note `if output:` also treats an
empty dict as falsy). -/
structure DialogResp where
  rc : Int
  output : Option (List (String × String))
deriving Repr

/-- Truthiness of the `output` dict. -/
def outTruthy : Option (List (String × String)) → Bool
  | none => false
  | some l => l ≠ []

/-- A rendered text field: `title` is the `~`-abbreviated path, `value` the
prefilled name. -/
structure Textfield where
  title : String
  value : String
deriving DecidableEq, Repr

/-- `max_items_per_page = max((max_dialog_height - 200 - 60) // 45, 3)`.
Python floor-divides a possibly negative difference, but the clamp to 3
makes the `Nat` truncated subtraction agree with it for every height:
for `h ≥ 260` both give `(h - 260) / 45 ⊔ 3`, and for `h < 260` Python's
negative quotient and `Nat`'s zero both clamp to `3`. -/
def maxItemsPerPage (maxDialogHeight : Nat) : Nat :=
  max ((maxDialogHeight - 260) / 45) 3

/-- Context fixed for the whole pagination loop. -/
structure RenameCtx where
  home : String
  custom : List (String × String)
  items : List RItem
  per : Nat
deriving Repr

/-- `total_pages = (total_items + max_items_per_page - 1) // max_items_per_page`. -/
def totalPagesOf (ctx : RenameCtx) : Nat :=
  (ctx.items.length + ctx.per - 1) / ctx.per

/-- The slice of items shown on 0-indexed page `cp`
(`items[start:min(start+per, total)]`). -/
def pageItems (ctx : RenameCtx) (cp : Nat) : List RItem :=
  (ctx.items.drop (cp * ctx.per)).take ctx.per

/-- Prefill priority for one field: an edit from this session
(`all_results`), else a stored custom name, else
`item.get("name", basename(path))` — each step skipping falsy values. -/
def prefillValue (ctx : RenameCtx) (acc : List (String × String)) (it : RItem) : String :=
  let p := ritemPath it
  if pyTruthy (dictGet acc p) then (dictGet acc p).getD ""
  else if pyTruthy (dictGet ctx.custom p) then (dictGet ctx.custom p).getD ""
  else it.name.getD (pyBasename p)

/-- The text fields built for page `cp` from the current session edits. -/
def renderPage (ctx : RenameCtx) (acc : List (String × String)) (cp : Nat) :
    List Textfield :=
  (pageItems ctx cp).map fun it =>
    { title := pyReplace (ritemPath it) ctx.home "~"
      value := prefillValue ctx acc it }

/-- One field's worth of the edit-collection loop body: look the item's
`~`-abbreviated path up in the page output; a stripped non-blank value is
stored under the item's raw path, a blank value resets the stored name to
the directory basename, and an absent field leaves `all_results` alone. -/
def absorbStep (ctx : RenameCtx) (out : List (String × String))
    (acc : List (String × String)) (it : RItem) : List (String × String) :=
  match dictGet out (pyReplace (ritemPath it) ctx.home "~") with
  | none => acc
  | some raw =>
    if pyStrip raw ≠ "" then dictSet acc (ritemPath it) (pyStrip raw)
    else dictSet acc (ritemPath it) (pyBasename (ritemPath it))

/-- Collect edits from one page's dialog output into `all_results`,
regardless of which button was pressed. -/
def absorbOutput (ctx : RenameCtx) (acc : List (String × String))
    (pitems : List RItem) (out : List (String × String)) : List (String × String) :=
  pitems.foldl (absorbStep ctx out) acc

/-- `return all_results if all_results else None`. -/
def finishRename (acc : List (String × String)) : Option (List (String × String)) :=
  if acc = [] then none else some acc

/-- Outcome of the rename dialog: a Python return value, or the marker that
the response script ran out while the loop still wanted to show a dialog. -/
inductive RenameOutcome where
  | done (result : Option (List (String × String)))
  | scriptEnded (acc : List (String × String))
deriving Repr

/-- The session edits after one dialog round on page `cp`: the page's
output is absorbed whenever it is truthy, before the return code is even
inspected. -/
def accAfter (ctx : RenameCtx) (cp : Nat) (acc : List (String × String))
    (r : DialogResp) : List (String × String) :=
  if outTruthy r.output then absorbOutput ctx acc (pageItems ctx cp) (r.output.getD [])
  else acc

/-- The `while 0 <= current_page < total_pages` loop: render the page,
absorb any output, then navigate — `rc=0` advances or, on the last page,
saves; `rc=3` (info button) goes back one page, floored at 0; anything
else (`rc=2` cancel, errors) returns the edits accumulated so far.  Each
recursive call consumes one scripted response. -/
def renameLoop (ctx : RenameCtx) :
    List DialogResp → Nat → List (String × String) →
      List (List Textfield) × RenameOutcome
  | [], cp, acc =>
    if totalPagesOf ctx ≤ cp then ([], .done (finishRename acc))
    else ([renderPage ctx acc cp], .scriptEnded acc)
  | r :: rest, cp, acc =>
    if totalPagesOf ctx ≤ cp then ([], .done (finishRename acc))
    else
      let page := renderPage ctx acc cp
      let acc' := accAfter ctx cp acc r
      if r.rc = 0 then
        if totalPagesOf ctx ≤ cp + 1 then ([page], .done (finishRename acc'))
        else
          let next := renameLoop ctx rest (cp + 1) acc'
          (page :: next.1, next.2)
      else if r.rc = 3 then
        let next := renameLoop ctx rest (cp - 1) acc'
        (page :: next.1, next.2)
      else ([page], .done (finishRename acc'))

/-- `show_rename_tabs_dialog(items, custom_names, category_name)`: empty
item list (before or after the category filter) returns `None` without any
dialog; otherwise the pagination loop runs with the page size derived from
the available dialog height. -/
def show_rename_tabs_dialog (home : String) (maxDialogHeight : Nat)
    (items : List RItem) (custom_names : Option (List (String × String)))
    (category_name : Option String) (script : List DialogResp) :
    List (List Textfield) × RenameOutcome :=
  if items = [] then ([], .done none)
  else
    let items2 :=
      if pyTruthy category_name then items.filter (fun i => i.category = category_name)
      else items
    if items2 = [] then ([], .done none)
    else
      renameLoop ⟨home, custom_names.getD [], items2, maxItemsPerPage maxDialogHeight⟩
        script 0 []

/-! ## Tab reorder dialog (`tab_customization.py`, `show_tab_reorder_dialog`
and `_reorder_tabs_by_numbers`) -/

/-- A JSON value in the reorder dialog output: the code handles plain
strings (`"3"`) and select-item objects (`{"selectedValue": "3"}`); any
other shape fails `int()` with a `TypeError`. -/
inductive PyVal where
  | str (s : String)
  | obj (entries : List (String × String))
  | null
deriving DecidableEq, Repr

/-- Lookup in a `PyVal`-valued dict. -/
def dictGetV (d : List (String × PyVal)) (k : String) : Option PyVal :=
  match d.find? (fun p => p.1 = k) with
  | some p => some p.2
  | none => none

/-- `int(raw)` on a dialog value: only strings parse; a dict or `None`
raises `TypeError`. -/
def pyIntOfVal : PyVal → Option Int
  | .str s => pyInt s
  | _ => none

/-- `raw = output.get(name, "999")`. -/
def rawRankVal (output : List (String × PyVal)) (name : String) : PyVal :=
  (dictGetV output name).getD (.str "999")

/-- The `isinstance(raw, dict)` unwrap: `raw.get("selectedValue", "999")`. -/
def selectedValueOf : PyVal → PyVal
  | .obj d =>
    match dictGet d "selectedValue" with
    | some s => .str s
    | none => .str "999"
  | v => v

/-- The numeric rank assigned to one tab: look its display name up in the
dialog output (default `"999"`), unwrap a select-item dict, and parse with
`int()`, any failure falling back to `999`. -/
def rankOf (home : String) (custom : List (String × String))
    (output : List (String × PyVal)) (tab : Tab) : Int :=
  (pyIntOfVal (selectedValueOf
    (rawRankVal output (get_tab_display_name home tab (some custom))))).getD 999

/-- Key order for `pairs.sort(key=lambda x: x[0])` (stable, so embedded as
the stable `insertionSort` over `≤` on the numeric component). -/
def rankPairLE (a b : Int × Tab) : Prop :=
  a.1 ≤ b.1

instance : DecidableRel rankPairLE := fun a b => by
  unfold rankPairLE; infer_instance

instance : IsTotal (Int × Tab) rankPairLE :=
  ⟨fun a b => Int.le_total a.1 b.1⟩

instance : IsTrans (Int × Tab) rankPairLE :=
  ⟨fun _ _ _ hab hbc => le_trans hab hbc⟩

/-- `_reorder_tabs_by_numbers(tabs, custom_tab_names, output)`. -/
def reorder_tabs_by_numbers (home : String) (tabs : List Tab)
    (custom : List (String × String)) (output : List (String × PyVal)) : List Tab :=
  ((tabs.map (fun tab => (rankOf home custom output tab, tab))).insertionSort
    rankPairLE).map Prod.snd

/-- Decimal digits of a natural number, fuelled (kernel-evaluable `str(n)`). -/
def natDigits : Nat → Nat → List Char
  | 0, _ => []
  | fuel + 1, n =>
    if n < 10 then [Char.ofNat (48 + n)]
    else natDigits fuel (n / 10) ++ [Char.ofNat (48 + n % 10)]

/-- `str(n)` for a natural number. -/
def natToStr (n : Nat) : String :=
  String.mk (natDigits (n + 1) n)

/-- One rendered select control of the reorder dialog: the tab's display
name, the value range `1 .. 10 * count`, and the default `10 * (i + 1)`. -/
structure ReorderSelectItem where
  title : String
  values : List String
  defaultVal : String
deriving DecidableEq, Repr

/-- The select controls shown for the current tab order. -/
def renderReorderItems (home : String) (custom : List (String × String))
    (current : List Tab) : List ReorderSelectItem :=
  let values := (List.range (current.length * 10)).map (fun n => natToStr (n + 1))
  current.enum.map fun p =>
    { title := get_tab_display_name home p.2 (some custom)
      values := values
      defaultVal := natToStr ((p.1 + 1) * 10) }

/-- One response to the reorder dialog. -/
structure RDialogResp where
  rc : Int
  output : Option (List (String × PyVal))
deriving Repr

/-- Truthiness of the reorder dialog output dict. -/
def routTruthy : Option (List (String × PyVal)) → Bool
  | none => false
  | some l => l ≠ []

/-- Outcome of the reorder dialog. -/
inductive ReorderOutcome where
  | done (result : Option (List Tab))
  | scriptEnded (current : List Tab)
deriving Repr

/-- The `while True` sort/finalize loop: `rc=0` (Sort) re-sorts by the
submitted numbers when the output is truthy and re-renders; `rc=3`
(Finalize) commits the currently displayed order; anything else (cancel,
error) returns `None`.  (Only the select items of each iteration are
recorded; the message and button labels vary with the iteration counter
but carry no further state.) -/
def reorderLoop (home : String) (custom : List (String × String)) :
    List RDialogResp → List Tab → List (List ReorderSelectItem) × ReorderOutcome
  | [], current => ([renderReorderItems home custom current], .scriptEnded current)
  | r :: rest, current =>
    let page := renderReorderItems home custom current
    if r.rc = 0 then
      let current' :=
        if routTruthy r.output then
          reorder_tabs_by_numbers home current custom (r.output.getD [])
        else current
      let next := reorderLoop home custom rest current'
      (page :: next.1, next.2)
    else if r.rc = 3 then ([page], .done (some current))
    else ([page], .done none)

/-- `show_tab_reorder_dialog(tabs, custom_tab_names)`: zero or one tab is
returned unchanged with no dialog; otherwise the sort/finalize loop runs. -/
def show_tab_reorder_dialog (home : String) (tabs : List Tab)
    (custom_tab_names : Option (List (String × String))) (script : List RDialogResp) :
    List (List ReorderSelectItem) × ReorderOutcome :=
  if tabs.isEmpty || tabs.length ≤ 1 then ([], .done (some tabs))
  else reorderLoop home (custom_tab_names.getD []) script tabs

/-! ## Theorems -/

/-! ## Claims C1, C4, C5 -/

/-- C1. For any `Preferences` value `p` containing only representable field
values, and with no concurrent writer (a fault-free write), calling
`save_preferences(p)` followed by `load_preferences()` returns a value
equal to `p`: the persistence round-trip is the identity on representable
preferences. -/
theorem save_load_round_trip (fs : FS PrefsFile) (p : Preferences)
    (h : Representable p) :
    load_preferences (loadSourceOf (save_preferences fs p .ok)) = p := by
  obtain ⟨h1, h2, h3, _h4, h5, _h6, _h7⟩ := h
  obtain ⟨rc, ll, sd, ctn, dl, stc, lts, lto⟩ := p
  simp only [save_preferences, atomic_write_file, loadSourceOf, load_preferences,
    renderPreferences, Option.getD_some, Preferences.mk.injEq]
  refine ⟨trivial, ?_, ?_, ?_, ?_, trivial, ?_, ?_⟩
  · -- last_layout
    cases ll with
    | none => rfl
    | some s => simp only [optStrOK] at h1; simp [h1.1]
  · -- scan_directories
    cases sd <;> simp [DEFAULT_SCAN_DIRECTORIES]
  · -- custom_tab_names
    by_cases hc : ctn = []
    · simp [hc]
    · simp only [hc, if_pos, ne_eq, not_false_iff, if_true, Option.getD_some]
      exact List.Sorted.insertionSort_eq (h5.imp fun hab => Or.inl hab)
  · -- disabled_layouts
    cases dl <;> simp
  · -- last_tab_selections
    cases lts with
    | none => rfl
    | some l => simp only [optListOK] at h2; simp [h2.1]
  · -- last_tab_order
    cases lto with
    | none => rfl
    | some l => simp only [optListOK] at h3; simp [h3.1]

/-- Witness for C1 at a concrete representable preferences value. -/
theorem save_load_round_trip_witness :
    Representable
      { remember_choice := true, last_layout := some "grid",
        scan_directories := [⟨"~/code", true⟩],
        custom_tab_names := [("/a/repo", "RP"), ("/b/tool", "TL")],
        disabled_layouts := ["quad"], skip_tab_customization := some false,
        last_tab_selections := some ["RP"], last_tab_order := some ["/a/repo"] }
    ∧ load_preferences (loadSourceOf (save_preferences ⟨none, none⟩
      { remember_choice := true, last_layout := some "grid",
        scan_directories := [⟨"~/code", true⟩],
        custom_tab_names := [("/a/repo", "RP"), ("/b/tool", "TL")],
        disabled_layouts := ["quad"], skip_tab_customization := some false,
        last_tab_selections := some ["RP"], last_tab_order := some ["/a/repo"] } .ok))
      = { remember_choice := true, last_layout := some "grid",
          scan_directories := [⟨"~/code", true⟩],
          custom_tab_names := [("/a/repo", "RP"), ("/b/tool", "TL")],
          disabled_layouts := ["quad"], skip_tab_customization := some false,
          last_tab_selections := some ["RP"], last_tab_order := some ["/a/repo"] } :=
  ⟨by decide, save_load_round_trip _ _ (by decide)⟩

/-- C4. Every save goes through temp-file + fsync + atomic rename (the `.ok`
equation: the new target is exactly the rendered content and no temp file
survives); a failing write leaves the previous target untouched and removes
the partially-written temp file; `ENOSPC` is remapped to the distinct
disk-full error while other errnos surface as plain `OSError`; and
`save_preferences` returns normally (a plain `FS` state, no exception) on
every failure path. -/
theorem save_preferences_atomic (fs : FS PrefsFile) (p : Preferences)
    (e : Nat) (pw : PrefsFile) :
    save_preferences fs p .ok = { target := some (renderPreferences p), temp := none }
    ∧ (atomic_write_file fs (renderPreferences p) (.writeFail e pw)).2
        = .error (mapErrno e)
    ∧ save_preferences fs p (.writeFail e pw) = { target := fs.target, temp := none }
    ∧ save_preferences fs p (.renameFail e) = { target := fs.target, temp := none }
    ∧ mapErrno ENOSPC = .diskFull
    ∧ (e ≠ ENOSPC → mapErrno e = .osError e) := by
  refine ⟨rfl, rfl, rfl, rfl, rfl, fun he => ?_⟩
  simp [mapErrno, he]

/-- Witness for C4 at concrete inputs (errno 13 = `EACCES`). -/
theorem save_preferences_atomic_witness :
    save_preferences ⟨some {}, none⟩ defaultPreferences (.writeFail 13 {})
      = { target := some {}, temp := none }
    ∧ mapErrno 13 = .osError 13 :=
  ⟨(save_preferences_atomic ⟨some {}, none⟩ defaultPreferences 13 {}).2.2.1,
   (save_preferences_atomic ⟨some {}, none⟩ defaultPreferences 13 {}).2.2.2.2.2
     (by decide)⟩

/-- C5. `load_preferences` is total (its type returns a `Preferences` for
every load source, never an exception): a missing file and a parse failure
both yield the built-in defaults; a present-but-partial file shallow-merges
its top-level keys onto the defaults — a present key wins, an absent key
falls back — and in particular an absent `scan_directories` key reverts
fully to `DEFAULT_SCAN_DIRECTORIES` rather than being appended to. -/
theorem load_preferences_defaults :
    load_preferences .missing = defaultPreferences
    ∧ load_preferences .parseError = defaultPreferences
    ∧ (∀ f : PrefsFile, f.scan_directories = none →
        (load_preferences (.file f)).scan_directories = DEFAULT_SCAN_DIRECTORIES)
    ∧ (∀ f : PrefsFile, f.remember_choice = none →
        (load_preferences (.file f)).remember_choice = defaultPreferences.remember_choice)
    ∧ (∀ f : PrefsFile, ∀ b, f.remember_choice = some b →
        (load_preferences (.file f)).remember_choice = b)
    ∧ (∀ f : PrefsFile, (load_preferences (.file f)).last_layout = f.last_layout)
    ∧ (∀ f : PrefsFile, ∀ l, f.scan_directories = some l →
        (load_preferences (.file f)).scan_directories = l) := by
  refine ⟨rfl, rfl, fun f h => ?_, fun f h => ?_, fun f b h => ?_, fun f => rfl,
    fun f l h => ?_⟩ <;>
    simp [load_preferences, h]

/-- Witness for C5: a partial file holding only `remember_choice = true`
loads as the defaults with just that key overridden. -/
theorem load_preferences_defaults_witness :
    (load_preferences (.file { remember_choice := some true })).scan_directories
      = DEFAULT_SCAN_DIRECTORIES
    ∧ (load_preferences (.file { remember_choice := some true })).remember_choice = true :=
  ⟨load_preferences_defaults.2.2.1 { remember_choice := some true } rfl,
   load_preferences_defaults.2.2.2.2.1 { remember_choice := some true } true rfl⟩

/-- An item is in the repo result of `classifyChildren` exactly when some
child directory, not excluded, has a `.git` directory marker. -/
theorem mem_classifyChildren_repos {exclude : List String} {l : List FsEntry} {i : Item} :
    i ∈ (classifyChildren exclude l).1 ↔
      ∃ e ∈ l, e.isDir = true ∧ e.path ∉ exclude ∧ e.marker = .dirMarker
        ∧ i = ⟨e.name, e.path⟩ := by
  induction l with
  | nil => simp [classifyChildren]
  | cons e rest ih =>
    by_cases hd : e.isDir <;> by_cases hx : e.path ∈ exclude <;>
      cases hm : e.marker <;> by_cases hh : pyStartsWith e.name "." <;>
        simp [classifyChildren, hd, hx, hm, hh, ih]

/-- An item is in the untracked result of `classifyChildren` exactly when
some child directory, not excluded, has no `.git` marker and a non-hidden
name. -/
theorem mem_classifyChildren_untracked {exclude : List String} {l : List FsEntry} {i : Item} :
    i ∈ (classifyChildren exclude l).2 ↔
      ∃ e ∈ l, e.isDir = true ∧ e.path ∉ exclude ∧ e.marker = .noGit
        ∧ pyStartsWith e.name "." = false ∧ i = ⟨e.name, e.path⟩ := by
  induction l with
  | nil => simp [classifyChildren]
  | cons e rest ih =>
    by_cases hd : e.isDir <;> by_cases hx : e.path ∈ exclude <;>
      cases hm : e.marker <;> by_cases hh : pyStartsWith e.name "." <;>
        simp [classifyChildren, hd, hx, hm, hh, ih]

/-- Repo membership for the full scan, through root iteration and the final
name sort. -/
theorem mem_discover_repos {roots : List ScanRoot} {exclude : List String} {i : Item} :
    i ∈ (discover_all_directories roots exclude).1 ↔
      ∃ e ∈ scannedChildren roots, e.isDir = true ∧ e.path ∉ exclude
        ∧ e.marker = .dirMarker ∧ i = ⟨e.name, e.path⟩ := by
  rw [discover_all_directories, List.mem_insertionSort]
  induction roots with
  | nil => simp [collectRoots, scannedChildren]
  | cons r rest ih =>
    by_cases hr : r.rootExists <;>
      simp [collectRoots, scannedChildren, hr, ih, mem_classifyChildren_repos,
        or_and_right, exists_or]

/-- Untracked membership for the full scan. -/
theorem mem_discover_untracked {roots : List ScanRoot} {exclude : List String} {i : Item} :
    i ∈ (discover_all_directories roots exclude).2 ↔
      ∃ e ∈ scannedChildren roots, e.isDir = true ∧ e.path ∉ exclude
        ∧ e.marker = .noGit ∧ pyStartsWith e.name "." = false ∧ i = ⟨e.name, e.path⟩ := by
  rw [discover_all_directories, List.mem_insertionSort]
  induction roots with
  | nil => simp [collectRoots, scannedChildren]
  | cons r rest ih =>
    by_cases hr : r.rootExists <;>
      simp [collectRoots, scannedChildren, hr, ih, mem_classifyChildren_untracked,
        or_and_right, exists_or]

/-- C2. Every scanned immediate child directory not in the exclude set lands
in exactly one of the four outcomes — never zero and never two: a `.git`
directory marker puts it in the repo list (and not in the untracked list,
with no condition on hiddenness, so hidden repos are still repos); a `.git`
file marker (worktree pointer) puts it in neither list; no marker and a
non-hidden name puts it in the untracked list only; no marker and a hidden
name puts it in neither.  Distinct filesystem children have distinct paths
(`hN`). -/
theorem discovery_partition
    (roots : List ScanRoot) (exclude : List String) (e : FsEntry)
    (hN : ((scannedChildren roots).map FsEntry.path).Nodup)
    (he : e ∈ scannedChildren roots)
    (hd : e.isDir = true)
    (hx : e.path ∉ exclude) :
    (e.marker = .dirMarker →
      (⟨e.name, e.path⟩ : Item) ∈ (discover_all_directories roots exclude).1
        ∧ (⟨e.name, e.path⟩ : Item) ∉ (discover_all_directories roots exclude).2)
    ∧ (e.marker = .fileMarker →
      (⟨e.name, e.path⟩ : Item) ∉ (discover_all_directories roots exclude).1
        ∧ (⟨e.name, e.path⟩ : Item) ∉ (discover_all_directories roots exclude).2)
    ∧ (e.marker = .noGit → pyStartsWith e.name "." = false →
      (⟨e.name, e.path⟩ : Item) ∈ (discover_all_directories roots exclude).2
        ∧ (⟨e.name, e.path⟩ : Item) ∉ (discover_all_directories roots exclude).1)
    ∧ (e.marker = .noGit → pyStartsWith e.name "." = true →
      (⟨e.name, e.path⟩ : Item) ∉ (discover_all_directories roots exclude).1
        ∧ (⟨e.name, e.path⟩ : Item) ∉ (discover_all_directories roots exclude).2) := by
  have inj := List.inj_on_of_nodup_map hN
  have notRepo : e.marker ≠ .dirMarker →
      (⟨e.name, e.path⟩ : Item) ∉ (discover_all_directories roots exclude).1 := by
    intro hm hmem
    obtain ⟨e', he', _, _, hm', hi⟩ := mem_discover_repos.mp hmem
    obtain ⟨hn', hp'⟩ := Item.mk.injEq .. ▸ hi
    have hee : e = e' := inj he he' hp'
    exact hm (by rw [hee]; exact hm')
  have notUntracked : (e.marker ≠ .noGit ∨ pyStartsWith e.name "." = true) →
      (⟨e.name, e.path⟩ : Item) ∉ (discover_all_directories roots exclude).2 := by
    intro hm hmem
    obtain ⟨e', he', _, _, hm', hh', hi⟩ := mem_discover_untracked.mp hmem
    obtain ⟨hn', hp'⟩ := Item.mk.injEq .. ▸ hi
    have hee : e = e' := inj he he' hp'
    rcases hm with hm | hm
    · exact hm (hee ▸ hm')
    · rw [← hee] at hh'; rw [hm] at hh'; exact Bool.true_eq_false.mp hh'
  refine ⟨fun hm => ⟨?_, ?_⟩, fun hm => ⟨?_, ?_⟩, fun hm hh => ⟨?_, ?_⟩, fun hm hh => ⟨?_, ?_⟩⟩
  · exact mem_discover_repos.mpr ⟨e, he, hd, hx, hm, rfl⟩
  · exact notUntracked (Or.inl (by simp [hm]))
  · exact notRepo (by simp [hm])
  · exact notUntracked (Or.inl (by simp [hm]))
  · exact mem_discover_untracked.mpr ⟨e, he, hd, hx, hm, hh, rfl⟩
  · exact notRepo (by simp [hm])
  · exact notRepo (by simp [hm])
  · exact notUntracked (Or.inr hh)

/-- Witness for C2: a root with one real repo child — and a hidden repo
child, which is still classified as a repo — is partitioned as claimed. -/
theorem discovery_partition_witness :
    ((⟨"alpha", "/s/alpha"⟩ : Item) ∈
      (discover_all_directories
        [⟨true, [⟨"alpha", "/s/alpha", true, .dirMarker⟩,
                 ⟨"beta", "/s/beta", true, .fileMarker⟩,
                 ⟨"gamma", "/s/gamma", true, .noGit⟩,
                 ⟨".hidden", "/s/.hidden", true, .dirMarker⟩]⟩] []).1
      ∧ (⟨"alpha", "/s/alpha"⟩ : Item) ∉
        (discover_all_directories
          [⟨true, [⟨"alpha", "/s/alpha", true, .dirMarker⟩,
                   ⟨"beta", "/s/beta", true, .fileMarker⟩,
                   ⟨"gamma", "/s/gamma", true, .noGit⟩,
                   ⟨".hidden", "/s/.hidden", true, .dirMarker⟩]⟩] []).2)
    ∧ ((⟨".hidden", "/s/.hidden"⟩ : Item) ∈
      (discover_all_directories
        [⟨true, [⟨"alpha", "/s/alpha", true, .dirMarker⟩,
                 ⟨"beta", "/s/beta", true, .fileMarker⟩,
                 ⟨"gamma", "/s/gamma", true, .noGit⟩,
                 ⟨".hidden", "/s/.hidden", true, .dirMarker⟩]⟩] []).1
      ∧ (⟨".hidden", "/s/.hidden"⟩ : Item) ∉
        (discover_all_directories
          [⟨true, [⟨"alpha", "/s/alpha", true, .dirMarker⟩,
                   ⟨"beta", "/s/beta", true, .fileMarker⟩,
                   ⟨"gamma", "/s/gamma", true, .noGit⟩,
                   ⟨".hidden", "/s/.hidden", true, .dirMarker⟩]⟩] []).2) :=
  ⟨(discovery_partition _ [] ⟨"alpha", "/s/alpha", true, .dirMarker⟩
      (by decide) (by decide) rfl (by decide)).1 rfl,
   (discovery_partition _ [] ⟨".hidden", "/s/.hidden", true, .dirMarker⟩
      (by decide) (by decide) rfl (by decide)).1 rfl⟩

/-- The dedup loop yields pairwise-distinct resolved paths, none of which
was already in the `seen_dirs` set it started from. -/
theorem dedupWorktrees_nodup (env : GitEnv) :
    ∀ (l : List Worktree) (seen : List String),
      ((dedupWorktrees env l seen).map (wtKey env)).Nodup
        ∧ ∀ k ∈ (dedupWorktrees env l seen).map (wtKey env), k ∉ seen
  | [], _ => by simp [dedupWorktrees]
  | wt :: rest, seen => by
    by_cases h : wtKey env wt ∈ seen
    · simpa [dedupWorktrees, h] using dedupWorktrees_nodup env rest seen
    · have ih := dedupWorktrees_nodup env rest (wtKey env wt :: seen)
      have hstep : dedupWorktrees env (wt :: rest) seen
          = wt :: dedupWorktrees env rest (wtKey env wt :: seen) := by
        simp [dedupWorktrees, h]
      rw [hstep, List.map_cons]
      constructor
      · exact List.nodup_cons.mpr
          ⟨fun hmem => (ih.2 _ hmem) (List.mem_cons_self _ _), ih.1⟩
      · intro k hk hkseen
        rcases List.mem_cons.mp hk with rfl | hk
        · exact h hkseen
        · exact (ih.2 k hk) (List.mem_cons.mpr (Or.inr hkseen))

/-- Every parsed record's resolved path is represented in the dedup output
(or was already in the starting `seen_dirs` set). -/
theorem dedupWorktrees_covers (env : GitEnv) :
    ∀ (l : List Worktree) (seen : List String) (wt : Worktree), wt ∈ l →
      wtKey env wt ∈ seen
        ∨ ∃ wt' ∈ dedupWorktrees env l seen, wtKey env wt' = wtKey env wt
  | [], _, _, h => absurd h (List.not_mem_nil _)
  | w :: rest, seen, wt, h => by
    by_cases hs : wtKey env w ∈ seen
    · rcases List.mem_cons.mp h with rfl | h
      · exact Or.inl hs
      · rcases dedupWorktrees_covers env rest seen wt h with hI | ⟨wt', hw', hk⟩
        · exact Or.inl hI
        · exact Or.inr ⟨wt', by simp [dedupWorktrees, hs, hw'], hk⟩
    · rcases List.mem_cons.mp h with rfl | h
      · exact Or.inr ⟨wt, by simp [dedupWorktrees, hs], rfl⟩
      · rcases dedupWorktrees_covers env rest (wtKey env w :: seen) wt h with hI | ⟨wt', hw', hk⟩
        · rcases List.mem_cons.mp hI with he | hI
          · exact Or.inr ⟨w, by simp [dedupWorktrees, hs], he.symm⟩
          · exact Or.inl hI
        · exact Or.inr ⟨wt', by simp [dedupWorktrees, hs, hw'], hk⟩

/-- C3. For any environment (any symlink structure `resolve` may encode) and
any repo list — including repos whose worktree listings reference the same
physical directory — `discover_all_worktrees` returns each resolved
absolute path at most once (the resolved paths of its result are pairwise
distinct), and every record parsed from any repo's porcelain listing is
represented by exactly one result entry with the same resolved path. -/
theorem discover_all_worktrees_dedup (env : GitEnv) (repos : List RepoRef) :
    ((discover_all_worktrees env repos).map (wtKey env)).Nodup
      ∧ ∀ wt ∈ allParsedWorktrees env repos,
          ∃ wt' ∈ discover_all_worktrees env repos, wtKey env wt' = wtKey env wt := by
  constructor
  · exact (dedupWorktrees_nodup env (allParsedWorktrees env repos) []).1
  · intro wt hwt
    rcases dedupWorktrees_covers env (allParsedWorktrees env repos) [] wt hwt with h | h
    · exact absurd h (List.not_mem_nil _)
    · exact h

/-- Witness for C3: the shared worktree `/shared/w` is reachable from both
test repos, is parsed twice, and appears in the result with its resolved
path exactly once. -/
theorem discover_all_worktrees_dedup_witness :
    ((discover_all_worktrees wtTestEnv wtTestRepos).map (wtKey wtTestEnv)).Nodup
      ∧ (∃ wt' ∈ discover_all_worktrees wtTestEnv wtTestRepos,
          wtKey wtTestEnv wt'
            = wtKey wtTestEnv ⟨"/shared/w", "repob", some "RE.wt-x", false⟩) :=
  ⟨(discover_all_worktrees_dedup wtTestEnv wtTestRepos).1,
   (discover_all_worktrees_dedup wtTestEnv wtTestRepos).2
     ⟨"/shared/w", "repob", some "RE.wt-x", false⟩ (by decide)⟩

/-- C9. For every input list containing zero or one tab,
`show_tab_reorder_dialog` returns exactly the input list (not `None`)
without presenting any dialog: the rendered-dialog trace is empty and no
scripted response is consumed. -/
theorem show_tab_reorder_dialog_short (home : String) (tabs : List Tab)
    (custom : Option (List (String × String))) (script : List RDialogResp)
    (h : tabs.length ≤ 1) :
    show_tab_reorder_dialog home tabs custom script = ([], .done (some tabs)) := by
  simp [show_tab_reorder_dialog, h]

/-- Witness for C9 at a one-tab list (the script would cancel, but is never
consulted). -/
theorem show_tab_reorder_dialog_short_witness :
    show_tab_reorder_dialog "/home/u" [⟨some "/a", none⟩] none [⟨2, none⟩]
      = ([], .done (some [⟨some "/a", none⟩])) :=
  show_tab_reorder_dialog_short "/home/u" [⟨some "/a", none⟩] none [⟨2, none⟩] (by decide)

/-- C10. For every input tab list and every dialog output dict — malformed,
partial or empty — `_reorder_tabs_by_numbers` returns a permutation of its
input: the same tab dicts with the same multiplicities, no tab dropped,
duplicated or modified. -/
theorem reorder_tabs_by_numbers_perm (home : String) (tabs : List Tab)
    (custom : List (String × String)) (output : List (String × PyVal)) :
    (reorder_tabs_by_numbers home tabs custom output).Perm tabs := by
  unfold reorder_tabs_by_numbers
  have h1 := (List.perm_insertionSort rankPairLE
    (tabs.map (fun tab => (rankOf home custom output tab, tab)))).map Prod.snd
  rw [List.map_map] at h1
  have h2 : (tabs.map (Prod.snd ∘ fun tab => (rankOf home custom output tab, tab))) = tabs := by
    rw [show (Prod.snd ∘ fun tab : Tab => (rankOf home custom output tab, tab)) = id from rfl,
      List.map_id]
  rwa [h2] at h1

/-- Counterexample to C7 as stated: with submitted ranks `{A: "1000",
B: "zz"}` the malformed `B` is parsed as the literal fallback `999`, which
sorts *before* the valid rank `1000`, so a malformed value is not treated
as the worst possible rank — the result is `[B, A]` where the claim
requires `[A, B]`. -/
theorem reorder_malformed_not_worst_cex :
    reorder_tabs_by_numbers "/home/u"
        [⟨some "/a", some "A"⟩, ⟨some "/b", some "B"⟩] []
        [("A", .str "1000"), ("B", .str "zz")]
      = [⟨some "/b", some "B"⟩, ⟨some "/a", some "A"⟩] := by decide

/-- C7 (amended). The reorder sort step orders items ascending by their
numeric rank; ties (and any equal-rank pairs) keep their original relative
order, by stability of the sort; a missing or malformed rank value is
assigned the fixed fallback rank `999` — the worst possible only while
every submitted rank is below `999`, e.g. for item counts up to 99 — and
for items `[A,B,C]` with ranks `{A:20, B:10, C:30}` the preview order is
`[B,A,C]`. -/
theorem reorder_sort_semantics (home : String) (custom : List (String × String))
    (output : List (String × PyVal)) (tabs : List Tab) :
    List.Sorted (· ≤ ·)
      ((reorder_tabs_by_numbers home tabs custom output).map (rankOf home custom output))
    ∧ (∀ a b : Tab, List.Sublist [a, b] tabs →
        rankOf home custom output a ≤ rankOf home custom output b →
        List.Sublist [a, b] (reorder_tabs_by_numbers home tabs custom output))
    ∧ (∀ t : Tab, dictGetV output (get_tab_display_name home t (some custom)) = none →
        rankOf home custom output t = 999)
    ∧ (∀ t s, dictGetV output (get_tab_display_name home t (some custom)) = some (.str s) →
        pyInt s = none → rankOf home custom output t = 999)
    ∧ reorder_tabs_by_numbers ""
        [⟨some "/a", some "A"⟩, ⟨some "/b", some "B"⟩, ⟨some "/c", some "C"⟩] []
        [("A", .str "20"), ("B", .str "10"), ("C", .str "30")]
      = [⟨some "/b", some "B"⟩, ⟨some "/a", some "A"⟩, ⟨some "/c", some "C"⟩] := by
  refine ⟨?_, ?_, ?_, ?_, by decide⟩
  · have hs := List.sorted_insertionSort rankPairLE
      (tabs.map (fun tab => (rankOf home custom output tab, tab)))
    have hmap : (reorder_tabs_by_numbers home tabs custom output).map
        (rankOf home custom output)
        = ((tabs.map (fun tab => (rankOf home custom output tab, tab))).insertionSort
            rankPairLE).map Prod.fst := by
      rw [reorder_tabs_by_numbers, List.map_map]
      refine List.map_congr_left ?_
      intro p hp
      have hp' := (List.perm_insertionSort rankPairLE _).mem_iff.mp hp
      obtain ⟨t, _, rfl⟩ := List.mem_map.mp hp'
      rfl
    rw [hmap]
    exact List.Pairwise.map Prod.fst (fun a b hab => hab) hs
  · intro a b hsub hle
    have h1 : List.Sublist
        [(rankOf home custom output a, a), (rankOf home custom output b, b)]
        (tabs.map (fun tab => (rankOf home custom output tab, tab))) := by
      simpa using hsub.map (fun tab => (rankOf home custom output tab, tab))
    have hle' : rankPairLE (rankOf home custom output a, a)
        (rankOf home custom output b, b) := hle
    have h2 := List.pair_sublist_insertionSort (r := rankPairLE) hle' h1
    simpa [reorder_tabs_by_numbers] using h2.map Prod.snd
  · intro t hnone
    simp [rankOf, rawRankVal, hnone, selectedValueOf, pyIntOfVal]
    decide
  · intro t s hsome hbad
    simp [rankOf, rawRankVal, hsome, selectedValueOf, pyIntOfVal, hbad]

/-- Witness for C7 (amended): a tie between `Y` and `Z` (both rank 10)
keeps their original order, and a tab absent from the output gets rank
999. -/
theorem reorder_sort_semantics_witness :
    List.Sublist [(⟨some "/y", some "Y"⟩ : Tab), ⟨some "/z", some "Z"⟩]
      (reorder_tabs_by_numbers "" [⟨some "/x", some "X"⟩, ⟨some "/y", some "Y"⟩,
        ⟨some "/z", some "Z"⟩] []
        [("X", .str "20"), ("Y", .str "10"), ("Z", .str "10")])
    ∧ rankOf "" [] [("X", .str "20"), ("Y", .str "10"), ("Z", .str "10")]
        ⟨some "/w", some "W"⟩ = 999 :=
  ⟨(reorder_sort_semantics "" []
      [("X", .str "20"), ("Y", .str "10"), ("Z", .str "10")]
      [⟨some "/x", some "X"⟩, ⟨some "/y", some "Y"⟩, ⟨some "/z", some "Z"⟩]).2.1
      ⟨some "/y", some "Y"⟩ ⟨some "/z", some "Z"⟩
      (List.Sublist.cons _ (List.Sublist.refl _)) (by decide),
   (reorder_sort_semantics "" []
      [("X", .str "20"), ("Y", .str "10"), ("Z", .str "10")]
      [⟨some "/x", some "X"⟩, ⟨some "/y", some "Y"⟩, ⟨some "/z", some "Z"⟩]).2.2.1
      ⟨some "/w", some "W"⟩ (by decide)⟩

/-- Counterexample to C8 as stated: the same physical directory written as
`~/proj` and as `/home/u/proj` does *not* resolve to the same custom name —
`get_tab_display_name` looks the raw stored path up without normalising, so
the `~`-relative form misses the absolute-keyed entry and falls back to the
basename. -/
theorem display_name_no_normalization_cex :
    get_tab_display_name "/home/u" ⟨some "~/proj", none⟩ (some [("/home/u/proj", "N")])
      = "proj"
    ∧ get_tab_display_name "/home/u" ⟨some "/home/u/proj", none⟩
        (some [("/home/u/proj", "N")]) = "N"
    ∧ ("proj" : String) ≠ "N" := by decide

/-- C8 (amended). Display-name resolution looks the tab's *raw* stored
directory string up in `custom_tab_names` — no normalisation happens before
the lookup, so two different representations of the same directory resolve
to the same custom name only when they are equal as strings; `~`-expansion
is applied only inside the final basename fallback. -/
theorem get_tab_display_name_raw_lookup (home : String) (tab : Tab)
    (custom : Option (List (String × String))) :
    (∀ v, dictGet (custom.getD []) (tab.dir.getD "") = some v → v ≠ "" →
      get_tab_display_name home tab custom = v)
    ∧ (dictGet (custom.getD []) (tab.dir.getD "") = none →
      get_tab_display_name home tab custom
        = if pyTruthy tab.name then tab.name.getD ""
          else pyBasename (expand_tab_path home (tab.dir.getD ""))) := by
  constructor
  · intro v hv hne
    simp [get_tab_display_name, hv, pyTruthy, hne]
  · intro h
    simp [get_tab_display_name, h, pyTruthy]

/-- Witness for C8 (amended): the exact raw key is honoured, and a raw key
missing from the map falls through to the `~`-expanded basename. -/
theorem get_tab_display_name_raw_lookup_witness :
    get_tab_display_name "/home/u" ⟨some "/p", none⟩ (some [("/p", "X")]) = "X"
    ∧ get_tab_display_name "/home/u" ⟨some "~/proj", none⟩ (some [("/home/u/proj", "N")])
        = if pyTruthy (none : Option String) then (none : Option String).getD ""
          else pyBasename (expand_tab_path "/home/u" "~/proj") :=
  ⟨(get_tab_display_name_raw_lookup "/home/u" ⟨some "/p", none⟩
      (some [("/p", "X")])).1 "X" (by decide) (by decide),
   (get_tab_display_name_raw_lookup "/home/u" ⟨some "~/proj", none⟩
      (some [("/home/u/proj", "N")])).2 (by decide)⟩

/-- Unfolding dict lookup over a cons cell. -/
theorem dictGet_cons (k v : String) (rest : List (String × String)) (q : String) :
    dictGet ((k, v) :: rest) q = if k = q then some v else dictGet rest q := by
  by_cases h : k = q <;> simp [dictGet, List.find?, h]

/-- Lookup after assignment of the same key. -/
theorem dictGet_dictSet_self (d : List (String × String)) (k v : String) :
    dictGet (dictSet d k v) k = some v := by
  induction d with
  | nil => simp [dictSet, dictGet_cons]
  | cons p rest ih =>
    by_cases h : p.1 = k
    · simp [dictSet, h, dictGet_cons]
    · simp only [dictSet]
      rw [if_neg h]
      rw [dictGet_cons, if_neg h]
      exact ih

/-- Assignment leaves other keys untouched. -/
theorem dictGet_dictSet_ne (d : List (String × String)) (k v q : String) (h : q ≠ k) :
    dictGet (dictSet d k v) q = dictGet d q := by
  induction d with
  | nil =>
    simp only [dictSet]
    rw [dictGet_cons, if_neg (fun hk => h hk.symm)]
  | cons p rest ih =>
    by_cases hp : p.1 = k
    · simp only [dictSet]
      rw [if_pos hp, dictGet_cons, dictGet_cons, hp]
      rw [if_neg (fun hk => h hk.symm), if_neg (fun hk => h hk.symm)]
    · simp only [dictSet]
      rw [if_neg hp, dictGet_cons, dictGet_cons, ih]

/-- A successful lookup implies a non-empty dict. -/
theorem dictGet_ne_nil {d : List (String × String)} {k v : String}
    (h : dictGet d k = some v) : d ≠ [] := by
  intro hnil
  rw [hnil] at h
  exact Option.noConfusion h

/-- The edit-collection fold, one item at a time. -/
theorem absorbOutput_cons (ctx : RenameCtx) (acc : List (String × String))
    (it : RItem) (rest : List RItem) (out : List (String × String)) :
    absorbOutput ctx acc (it :: rest) out
      = absorbOutput ctx (absorbStep ctx out acc it) rest out := rfl

/-- Collecting one field never disturbs entries under other paths. -/
theorem absorbStep_lookup_ne (ctx : RenameCtx) (out acc : List (String × String))
    (it : RItem) (p : String) (h : ritemPath it ≠ p) :
    dictGet (absorbStep ctx out acc it) p = dictGet acc p := by
  rcases hm : dictGet out (pyReplace (ritemPath it) ctx.home "~") with _ | raw
  · simp [absorbStep, hm]
  · simp only [absorbStep, hm]
    split_ifs <;> rw [dictGet_dictSet_ne _ _ _ _ (fun hk => h hk.symm)]

/-- A page whose items all have paths different from `p` leaves the
accumulated entry for `p` unchanged — edits are never deleted by
visiting other pages. -/
theorem absorbOutput_untouched (ctx : RenameCtx) (out : List (String × String))
    (p : String) :
    ∀ (pitems : List RItem) (acc : List (String × String)),
      (∀ it ∈ pitems, ritemPath it ≠ p) →
      dictGet (absorbOutput ctx acc pitems out) p = dictGet acc p
  | [], acc, _ => rfl
  | it :: rest, acc, h => by
    rw [absorbOutput_cons]
    rw [absorbOutput_untouched ctx out p rest _ (fun x hx => h x (List.mem_cons_of_mem _ hx))]
    exact absorbStep_lookup_ne ctx out acc it p (h it (List.mem_cons_self _ _))

/-- Collecting an edited field stores the stripped value under the raw
path. -/
theorem absorbStep_writes (ctx : RenameCtx) (out acc : List (String × String))
    (A : RItem) (rawv : String)
    (hout : dictGet out (pyReplace (ritemPath A) ctx.home "~") = some rawv)
    (hv : pyStrip rawv ≠ "") :
    dictGet (absorbStep ctx out acc A) (ritemPath A) = some (pyStrip rawv) := by
  simp [absorbStep, hout, hv, dictGet_dictSet_self]

/-- Once the accumulated entry for item `A` holds the stripped edit, any
run of fields that can only rewrite that path through `A` itself keeps it
intact. -/
theorem absorbOutput_hold (ctx : RenameCtx) (out : List (String × String))
    (A : RItem) (rawv : String)
    (hout : dictGet out (pyReplace (ritemPath A) ctx.home "~") = some rawv)
    (hv : pyStrip rawv ≠ "") :
    ∀ (pitems : List RItem) (acc : List (String × String)),
      (∀ it ∈ pitems, ritemPath it = ritemPath A → it = A) →
      dictGet acc (ritemPath A) = some (pyStrip rawv) →
      dictGet (absorbOutput ctx acc pitems out) (ritemPath A) = some (pyStrip rawv)
  | [], acc, _, pre => pre
  | it :: rest, acc, hU, pre => by
    rw [absorbOutput_cons]
    refine absorbOutput_hold ctx out A rawv hout hv rest _
      (fun x hx => hU x (List.mem_cons_of_mem _ hx)) ?_
    by_cases hp : ritemPath it = ritemPath A
    · have hit : it = A := hU it (List.mem_cons_self _ _) hp
      subst hit
      exact absorbStep_writes ctx out acc it rawv hout hv
    · rw [absorbStep_lookup_ne ctx out acc it _ hp]
      exact pre

/-- Absorbing a page that shows item `A`, whose field carries a non-blank
edit, stores the stripped edit under `A`'s raw path. -/
theorem absorbOutput_written (ctx : RenameCtx) (out : List (String × String))
    (A : RItem) (rawv : String)
    (hout : dictGet out (pyReplace (ritemPath A) ctx.home "~") = some rawv)
    (hv : pyStrip rawv ≠ "") :
    ∀ (pitems : List RItem) (acc : List (String × String)),
      (∀ it ∈ pitems, ritemPath it = ritemPath A → it = A) →
      A ∈ pitems →
      dictGet (absorbOutput ctx acc pitems out) (ritemPath A) = some (pyStrip rawv)
  | [], _, _, hA => absurd hA (List.not_mem_nil _)
  | it :: rest, acc, hU, hA => by
    rw [absorbOutput_cons]
    rcases List.mem_cons.mp hA with rfl | hA'
    · exact absorbOutput_hold ctx out A rawv hout hv rest _
        (fun x hx => hU x (List.mem_cons_of_mem _ hx))
        (absorbStep_writes ctx out acc A rawv hout hv)
    · exact absorbOutput_written ctx out A rawv hout hv rest _
        (fun x hx => hU x (List.mem_cons_of_mem _ hx)) hA'

/-- One loop round: `rc = 0` on a non-final page absorbs the output and
advances. -/
theorem renameLoop_nextPage (ctx : RenameCtx) (r : DialogResp) (rest : List DialogResp)
    (cp : Nat) (acc : List (String × String))
    (h1 : ¬ totalPagesOf ctx ≤ cp) (h0 : r.rc = 0) (h2 : ¬ totalPagesOf ctx ≤ cp + 1) :
    renameLoop ctx (r :: rest) cp acc
      = (renderPage ctx acc cp :: (renameLoop ctx rest (cp + 1) (accAfter ctx cp acc r)).1,
         (renameLoop ctx rest (cp + 1) (accAfter ctx cp acc r)).2) := by
  simp [renameLoop, h1, h0, h2]

/-- One loop round: `rc = 3` absorbs the output and goes back one page. -/
theorem renameLoop_back (ctx : RenameCtx) (r : DialogResp) (rest : List DialogResp)
    (cp : Nat) (acc : List (String × String))
    (h1 : ¬ totalPagesOf ctx ≤ cp) (h3 : r.rc = 3) :
    renameLoop ctx (r :: rest) cp acc
      = (renderPage ctx acc cp :: (renameLoop ctx rest (cp - 1) (accAfter ctx cp acc r)).1,
         (renameLoop ctx rest (cp - 1) (accAfter ctx cp acc r)).2) := by
  have h0 : r.rc ≠ 0 := by rw [h3]; decide
  simp [renameLoop, h1, h0, h3]

/-- One loop round: any other return code (cancel, error) absorbs the
output of the page being cancelled and returns the accumulated edits. -/
theorem renameLoop_cancel (ctx : RenameCtx) (r : DialogResp) (rest : List DialogResp)
    (cp : Nat) (acc : List (String × String))
    (h1 : ¬ totalPagesOf ctx ≤ cp) (hc0 : r.rc ≠ 0) (hc3 : r.rc ≠ 3) :
    renameLoop ctx (r :: rest) cp acc
      = ([renderPage ctx acc cp], .done (finishRename (accAfter ctx cp acc r))) := by
  simp [renameLoop, h1, hc0, hc3]



theorem rename_edits_accumulate
    (home : String) (H : Nat) (items : List RItem)
    (custom : Option (List (String × String)))
    (A : RItem) (rawv : String)
    (out1 : List (String × String)) (out2 : Option (List (String × String)))
    (rest : List DialogResp)
    (hP : items.Pairwise (fun x y => ritemPath x ≠ ritemPath y))
    (hlen : maxItemsPerPage H < items.length)
    (hA : A ∈ items.take (maxItemsPerPage H))
    (hout : dictGet out1 (pyReplace (ritemPath A) home "~") = some rawv)
    (hv : pyStrip rawv ≠ "") :
    (∃ pg, (show_rename_tabs_dialog home H items custom none
        (⟨0, some out1⟩ :: ⟨3, out2⟩ :: ⟨2, none⟩ :: rest)).1.get? 2 = some pg
      ∧ (⟨pyReplace (ritemPath A) home "~", pyStrip rawv⟩ : Textfield) ∈ pg)
    ∧ ∃ res, (show_rename_tabs_dialog home H items custom none
        (⟨0, some out1⟩ :: ⟨3, out2⟩ :: ⟨2, none⟩ :: rest)).2
          = .done (some res)
      ∧ dictGet res (ritemPath A) = some (pyStrip rawv) := by
  have hper3 : 3 ≤ maxItemsPerPage H := le_max_right _ _
  have hper0 : 0 < maxItemsPerPage H := by omega
  set per := maxItemsPerPage H with hper_def
  set ctx : RenameCtx := ⟨home, custom.getD [], items, per⟩ with hctx
  have hne : items ≠ [] := by
    intro h
    rw [h] at hlen
    simp at hlen
  have hTP : 2 ≤ totalPagesOf ctx := by
    show 2 ≤ (items.length + per - 1) / per
    refine (Nat.le_div_iff_mul_le hper0).mpr ?_
    omega
  have hn0 : ¬ totalPagesOf ctx ≤ 0 := by omega
  have hn1 : ¬ totalPagesOf ctx ≤ 1 := by omega
  have hAmem : A ∈ items := (List.take_sublist per items).subset hA
  have hApg0 : A ∈ pageItems ctx 0 := by
    simpa [pageItems] using hA
  have hsym : Symmetric (fun x y : RItem => ritemPath x ≠ ritemPath y) :=
    fun x y h => h.symm
  have hU0 : ∀ it ∈ pageItems ctx 0, ritemPath it = ritemPath A → it = A := by
    intro it hit hpath
    by_contra hne'
    have hit' : it ∈ items := by
      refine (List.take_sublist per items).subset ?_
      simpa [pageItems] using hit
    exact (hP.forall hsym hit' hAmem hne') hpath
  have hout1ne : out1 ≠ [] := dictGet_ne_nil hout
  -- the three dialog rounds
  have hacc1 : accAfter ctx 0 [] ⟨0, some out1⟩
      = absorbOutput ctx [] (pageItems ctx 0) out1 := by
    simp [accAfter, outTruthy, hout1ne]
  have key1 : dictGet (accAfter ctx 0 [] ⟨0, some out1⟩) (ritemPath A)
      = some (pyStrip rawv) := by
    rw [hacc1]
    exact absorbOutput_written ctx out1 A rawv hout hv (pageItems ctx 0) [] hU0 hApg0
  have hcross : ∀ it ∈ pageItems ctx 1, ritemPath it ≠ ritemPath A := by
    intro it hit
    have hdrop : it ∈ items.drop per := by
      refine (List.take_sublist per (items.drop per)).subset ?_
      simpa [pageItems, one_mul] using hit
    have hP2 := hP
    rw [← List.take_append_drop per items] at hP2
    obtain ⟨-, -, hc⟩ := List.pairwise_append.mp hP2
    exact fun hpath => (hc A hA it hdrop) hpath.symm
  have key2 : dictGet (accAfter ctx 1 (accAfter ctx 0 [] ⟨0, some out1⟩) ⟨3, out2⟩)
      (ritemPath A) = some (pyStrip rawv) := by
    rw [accAfter]
    split_ifs with ht
    · rw [absorbOutput_untouched ctx (out2.getD []) (ritemPath A) (pageItems ctx 1) _ hcross]
      exact key1
    · exact key1
  have hacc3 : accAfter ctx 0
      (accAfter ctx 1 (accAfter ctx 0 [] ⟨0, some out1⟩) ⟨3, out2⟩) ⟨2, none⟩
      = accAfter ctx 1 (accAfter ctx 0 [] ⟨0, some out1⟩) ⟨3, out2⟩ := by
    simp [accAfter, outTruthy]
  have hshow : show_rename_tabs_dialog home H items custom none
      (⟨0, some out1⟩ :: ⟨3, out2⟩ :: ⟨2, none⟩ :: rest)
      = renameLoop ctx (⟨0, some out1⟩ :: ⟨3, out2⟩ :: ⟨2, none⟩ :: rest) 0 [] := by
    simp [show_rename_tabs_dialog, hne, pyTruthy]
  have e0 := renameLoop_nextPage ctx ⟨0, some out1⟩ (⟨3, out2⟩ :: ⟨2, none⟩ :: rest)
    0 [] hn0 rfl hn1
  have e1 := renameLoop_back ctx ⟨3, out2⟩ (⟨2, none⟩ :: rest)
    1 (accAfter ctx 0 [] ⟨0, some out1⟩) hn1 rfl
  have e2 := renameLoop_cancel ctx ⟨2, none⟩ rest
    0 (accAfter ctx 1 (accAfter ctx 0 [] ⟨0, some out1⟩) ⟨3, out2⟩) hn0
    (by decide) (by decide)
  have hloop : renameLoop ctx (⟨0, some out1⟩ :: ⟨3, out2⟩ :: ⟨2, none⟩ :: rest) 0 []
      = ([renderPage ctx [] 0,
          renderPage ctx (accAfter ctx 0 [] ⟨0, some out1⟩) 1,
          renderPage ctx (accAfter ctx 1 (accAfter ctx 0 [] ⟨0, some out1⟩) ⟨3, out2⟩) 0],
         .done (finishRename
           (accAfter ctx 1 (accAfter ctx 0 [] ⟨0, some out1⟩) ⟨3, out2⟩))) := by
    rw [e0]
    have e1' : (renameLoop ctx (⟨3, out2⟩ :: ⟨2, none⟩ :: rest) (0 + 1)
        (accAfter ctx 0 [] ⟨0, some out1⟩)) = _ := e1
    rw [e1']
    simp only [Nat.sub_self]
    rw [e2, hacc3]
  have hfield : (⟨pyReplace (ritemPath A) home "~", pyStrip rawv⟩ : Textfield)
      ∈ renderPage ctx (accAfter ctx 1 (accAfter ctx 0 [] ⟨0, some out1⟩) ⟨3, out2⟩) 0 := by
    refine List.mem_map.mpr ⟨A, hApg0, ?_⟩
    simp [prefillValue, key2, pyTruthy, hv]
  constructor
  · refine ⟨renderPage ctx (accAfter ctx 1 (accAfter ctx 0 [] ⟨0, some out1⟩) ⟨3, out2⟩) 0,
      ?_, hfield⟩
    rw [hshow, hloop]
    rfl
  · refine ⟨accAfter ctx 1 (accAfter ctx 0 [] ⟨0, some out1⟩) ⟨3, out2⟩, ?_, key2⟩
    rw [hshow, hloop]
    simp [finishRename, dictGet_ne_nil key2]



/-- Witness for C6: four items, page size 3 (minimum), edit `" NEW "` on
item 1, page forward, back, cancel. -/
theorem rename_edits_accumulate_witness :
    (∃ pg, (show_rename_tabs_dialog "/home/u" 0
        [⟨some "/d1", none, some "n1", none⟩, ⟨some "/d2", none, some "n2", none⟩,
         ⟨some "/d3", none, some "n3", none⟩, ⟨some "/d4", none, some "n4", none⟩]
        none none
        (⟨0, some [("/d1", " NEW ")]⟩ :: ⟨3, some []⟩ :: ⟨2, none⟩ :: [])).1.get? 2
          = some pg
      ∧ (⟨pyReplace (ritemPath ⟨some "/d1", none, some "n1", none⟩) "/home/u" "~",
          pyStrip " NEW "⟩ : Textfield) ∈ pg)
    ∧ ∃ res, (show_rename_tabs_dialog "/home/u" 0
        [⟨some "/d1", none, some "n1", none⟩, ⟨some "/d2", none, some "n2", none⟩,
         ⟨some "/d3", none, some "n3", none⟩, ⟨some "/d4", none, some "n4", none⟩]
        none none
        (⟨0, some [("/d1", " NEW ")]⟩ :: ⟨3, some []⟩ :: ⟨2, none⟩ :: [])).2
          = .done (some res)
      ∧ dictGet res (ritemPath ⟨some "/d1", none, some "n1", none⟩)
          = some (pyStrip " NEW ") :=
  rename_edits_accumulate "/home/u" 0
    [⟨some "/d1", none, some "n1", none⟩, ⟨some "/d2", none, some "n2", none⟩,
     ⟨some "/d3", none, some "n3", none⟩, ⟨some "/d4", none, some "n4", none⟩]
    none ⟨some "/d1", none, some "n1", none⟩ " NEW " [("/d1", " NEW ")] (some []) []
    (by decide) (by decide) (by decide) (by decide) (by decide)


end WorkspaceLauncher
